import Mathlib

/-!
Shallow embedding of the Stellars Finance perpetuals contracts
(market-manager, position-manager, liquidity-pool), with theorems checking
the natural-language specification against the code.

Conventions of the embedding:
* Rust `u128`/`u64`/`u32` values are modelled as `Nat`; `i128` values as `Int`.
* Rust `i128` division truncates toward zero, so every `i128` division in the
  source is modelled with `Int.tdiv` (never with `/`, which is Euclidean
  division on `Int` in Mathlib).
* A Soroban `panic!` aborts the whole contract invocation and reverts every
  storage mutation, so fallible entry points are modelled as `Except Err _`
  (an `Except.error` result corresponds to a panic with all state discarded).
* Contract storage touched by an operation is passed in and returned
  explicitly; external collaborators (config values, oracle price, clock) are
  explicit arguments.
-/

namespace StellarsFinance

/-- Panic reasons of the embedded contract entry points (each corresponds to a
`panic!` site in the source). -/
inductive Err
  | fundingIntervalNotElapsed
  | exceedsMaxOpenInterest
  | oiUnderflow
  | notLiquidatable
  | amountNotPositive
  | invalidPoolState
  | sharesNotPositive
  | noSharesToBurn
  | insufficientShares
  | insufficientAvailableLiquidity
  | minReserveViolated
  | orderNotFound
  | orderExpired
  | marketPaused
  | triggerNotMet
  | priceOutsideAcceptable
  deriving DecidableEq, Repr

deriving instance DecidableEq for Except

/-- Whether an embedded entry point completed without panicking. -/
def exceptIsOk {α : Type} : Except Err α → Bool
  | .ok _ => true
  | .error _ => false

/-! ## Market/Funding-Rate Engine (market-manager/src/lib.rs) -/

/-- The `Market` struct of the market-manager contract. -/
structure Market where
  marketId : Nat
  maxOpenInterest : Nat
  longOpenInterest : Nat
  shortOpenInterest : Nat
  fundingRate : Int
  lastFundingUpdate : Nat
  cumulativeFundingLong : Int
  cumulativeFundingShort : Int
  isPaused : Bool
  baseFundingRate : Int
  maxFundingRate : Int
  deriving DecidableEq, Repr

/-- Embedding of `create_market`: a fresh market with zero open interest and funding,
`base_funding_rate = 100`, and the caller-supplied caps. -/
def createMarket (marketId : Nat) (maxOpenInterest : Nat) (maxFundingRate : Int)
    (now : Nat) : Market :=
  { marketId := marketId
    maxOpenInterest := maxOpenInterest
    longOpenInterest := 0
    shortOpenInterest := 0
    fundingRate := 0
    lastFundingUpdate := now
    cumulativeFundingLong := 0
    cumulativeFundingShort := 0
    isPaused := false
    baseFundingRate := 100
    maxFundingRate := maxFundingRate }

/-- Embedding of `update_open_interest`: increases are checked against `max_open_interest`,
decreases against underflow.  (The `require_position_manager` authorization
check is outside the scope of the embedded state transition.) -/
def updateOpenInterest (m : Market) (isLong : Bool) (sizeDelta : Int) :
    Except Err Market :=
  if isLong then
    if 0 < sizeDelta then
      let newLongOi := m.longOpenInterest + sizeDelta.toNat
      if m.maxOpenInterest < newLongOi then .error .exceedsMaxOpenInterest
      else .ok { m with longOpenInterest := newLongOi }
    else
      let decrease := (-sizeDelta).toNat
      if m.longOpenInterest < decrease then .error .oiUnderflow
      else .ok { m with longOpenInterest := m.longOpenInterest - decrease }
  else
    if 0 < sizeDelta then
      let newShortOi := m.shortOpenInterest + sizeDelta.toNat
      if m.maxOpenInterest < newShortOi then .error .exceedsMaxOpenInterest
      else .ok { m with shortOpenInterest := newShortOi }
    else
      let decrease := (-sizeDelta).toNat
      if m.shortOpenInterest < decrease then .error .oiUnderflow
      else .ok { m with shortOpenInterest := m.shortOpenInterest - decrease }

/-- Embedding of `update_funding_rate`: the funding-rate update of the market-manager
contract, verbatim.  `now` is the ledger timestamp and `fundingInterval` the
value read from the config manager.  Note that the source checks only the
funding interval (there is no `is_paused` check), and that
`imbalance_squared` is a square, so `funding_rate` can never become
negative when `base_funding_rate` is nonnegative. -/
def updateFundingRate (m : Market) (now : Nat) (fundingInterval : Nat) :
    Except Err Market :=
  let timeElapsed := now - m.lastFundingUpdate
  if timeElapsed < fundingInterval then .error .fundingIntervalNotElapsed
  else
    let totalOi := m.longOpenInterest + m.shortOpenInterest
    if totalOi = 0 then .ok { m with lastFundingUpdate := now }
    else
      let oiDiff : Int := (m.longOpenInterest : Int) - (m.shortOpenInterest : Int)
      let imbalanceRatioBps := Int.tdiv (oiDiff * 10000) (totalOi : Int)
      let imbalanceSquared :=
        Int.tdiv (imbalanceRatioBps * imbalanceRatioBps) 10000
      let fundingRate0 := Int.tdiv (m.baseFundingRate * imbalanceSquared) 10000
      let fundingRate :=
        if m.maxFundingRate < fundingRate0 then m.maxFundingRate
        else if fundingRate0 < -m.maxFundingRate then -m.maxFundingRate
        else fundingRate0
      let totalFunding := fundingRate * (timeElapsed : Int)
      let cumLong :=
        if 0 < fundingRate then m.cumulativeFundingLong + totalFunding
        else m.cumulativeFundingLong
      let cumShort :=
        if fundingRate < 0 then
          m.cumulativeFundingShort + (totalFunding.natAbs : Int)
        else m.cumulativeFundingShort
      .ok { m with
              fundingRate := fundingRate
              lastFundingUpdate := now
              cumulativeFundingLong := cumLong
              cumulativeFundingShort := cumShort }

/-- Embedding of `pause_market` (the admin check is outside the embedded transition). -/
def pauseMarket (m : Market) : Market := { m with isPaused := true }

/-- Embedding of `unpause_market`. -/
def unpauseMarket (m : Market) : Market := { m with isPaused := false }

/-- Markets reachable from `create_market` by any sequence of successful
`update_open_interest`, `update_funding_rate`, `pause_market` and
`unpause_market` calls. -/
inductive MarketReachable : Market → Prop
  | create (marketId maxOpenInterest : Nat) (maxFundingRate : Int) (now : Nat) :
      MarketReachable (createMarket marketId maxOpenInterest maxFundingRate now)
  | oi {m m' : Market} {isLong : Bool} {sizeDelta : Int} :
      MarketReachable m → updateOpenInterest m isLong sizeDelta = .ok m' →
      MarketReachable m'
  | funding {m m' : Market} {now fundingInterval : Nat} :
      MarketReachable m → updateFundingRate m now fundingInterval = .ok m' →
      MarketReachable m'
  | pause {m : Market} : MarketReachable m → MarketReachable (pauseMarket m)
  | unpause {m : Market} : MarketReachable m → MarketReachable (unpauseMarket m)

/-- A market produced by a successful `update_open_interest` keeps both sides
of the open interest within `max_open_interest` if its input did. -/
theorem updateOpenInterest_preserves_bounds {m m' : Market} {isLong : Bool}
    {sizeDelta : Int} (h : updateOpenInterest m isLong sizeDelta = .ok m')
    (hl : m.longOpenInterest ≤ m.maxOpenInterest)
    (hs : m.shortOpenInterest ≤ m.maxOpenInterest) :
    m'.longOpenInterest ≤ m'.maxOpenInterest ∧
      m'.shortOpenInterest ≤ m'.maxOpenInterest := by
  unfold updateOpenInterest at h
  split at h <;> split at h <;> dsimp only at h <;> split at h <;>
    cases h <;> constructor <;> dsimp only <;> omega

/-- Lemma: `update_funding_rate` never changes the open-interest counters or the
open-interest cap. -/
theorem updateFundingRate_preserves_oi {m m' : Market} {now fundingInterval : Nat}
    (h : updateFundingRate m now fundingInterval = .ok m') :
    m'.longOpenInterest = m.longOpenInterest ∧
      m'.shortOpenInterest = m.shortOpenInterest ∧
      m'.maxOpenInterest = m.maxOpenInterest := by
  unfold updateFundingRate at h
  dsimp only at h
  split at h
  · cases h
  · split at h <;> cases h <;> exact ⟨rfl, rfl, rfl⟩

/-- Claim C6: every market reachable from `create_market` through
`update_open_interest`, `update_funding_rate`, `pause_market` and
`unpause_market` satisfies `long_open_interest ≤ max_open_interest` and
`short_open_interest ≤ max_open_interest` (both counters are `u128`, hence
nonnegative by construction): positive deltas beyond the cap and negative
deltas below zero are rejected by `update_open_interest`. -/
theorem c6_open_interest_invariant (m : Market) (h : MarketReachable m) :
    m.longOpenInterest ≤ m.maxOpenInterest ∧
      m.shortOpenInterest ≤ m.maxOpenInterest := by
  induction h with
  | create marketId maxOpenInterest maxFundingRate now => simp [createMarket]
  | oi _ hstep ih => exact updateOpenInterest_preserves_bounds hstep ih.1 ih.2
  | funding _ hstep ih =>
      obtain ⟨h1, h2, h3⟩ := updateFundingRate_preserves_oi hstep
      rw [h1, h2, h3]; exact ih
  | pause _ ih => exact ih
  | unpause _ ih => exact ih

/-- The market used to witness the open-interest invariant: created with
`max_open_interest = 1000000`, then a successful long increase of 400. -/
def c6Market : Market :=
  { createMarket 0 1000000 1000 0 with longOpenInterest := 400 }

/-- Witness for C6: the invariant holds at a concrete reachable market. -/
theorem c6_open_interest_invariant_witness :
    c6Market.longOpenInterest ≤ c6Market.maxOpenInterest ∧
      c6Market.shortOpenInterest ≤ c6Market.maxOpenInterest :=
  c6_open_interest_invariant c6Market
    (@MarketReachable.oi (createMarket 0 1000000 1000 0) c6Market true 400
      (MarketReachable.create 0 1000000 1000 0) (by decide))

/-- A short-heavy market: `long_oi = 40`, `short_oi = 60`,
`base_funding_rate = 100`, `max_funding_rate = 1000`, last update at 0. -/
def c1Market : Market :=
  { createMarket 0 1000000 1000 0 with
      longOpenInterest := 40
      shortOpenInterest := 60 }

/-- Claim C1 (divergence): on the short-heavy market `c1Market`
(`short_oi = 60 > long_oi = 40`), `update_funding_rate` at timestamp 60 with
a 60-second interval succeeds but computes a POSITIVE funding rate of 4 and
advances the LONG accumulator by `4 * 60 = 240`, leaving the short
accumulator at 0: squaring `imbalance_bps = -2000` discards its sign and the
sign is never restored, so the `funding_rate < 0` branch that would advance
the short accumulator is unreachable.  The claim (and the contract's own
header comment, "Negative funding: Shorts pay longs (when shorts > longs)")
requires a negative rate and an advance of the short accumulator here. -/
theorem c1_funding_sign_not_restored :
    c1Market.longOpenInterest < c1Market.shortOpenInterest ∧
      Except.map
        (fun m => (m.fundingRate, m.cumulativeFundingLong, m.cumulativeFundingShort))
        (updateFundingRate c1Market 60 60) = Except.ok (4, 240, 0) ∧
      (0 : Int) < 4 := by
  refine ⟨by decide, ?_, by decide⟩
  decide

/-- The paused version of the short-heavy market. -/
def c8Market : Market := pauseMarket c1Market

/-- Claim C8 (divergence): `update_funding_rate` on a PAUSED market still
succeeds once the funding interval has elapsed — the source never reads
`is_paused` in `update_funding_rate`, although the contract's own header
comment says funding-rate updates are suspended while paused, and the claim
requires the call to fail on every paused market. -/
theorem c8_paused_market_funding_update_succeeds :
    c8Market.isPaused = true ∧
      exceptIsOk (updateFundingRate c8Market 60 60) = true := by
  constructor
  · rfl
  · decide

/-! ## Position Lifecycle Manager (position-manager/src/lib.rs) -/

/-- Embedding of `calculate_liquidation_price`: with `r = collateral*10000/size` (basis
points), longs get `entry_price * (10000 - r + 100) / 10000` and shorts
`entry_price * (10000 + r - 100) / 10000`; `size = 0` panics (`none`). -/
def calcLiquidationPrice (entryPrice : Int) (collateral size : Nat)
    (isLong : Bool) : Option Int :=
  if size = 0 then none
  else
    let collateralRatioBps := Int.tdiv ((collateral : Int) * 10000) (size : Int)
    if isLong then
      some (Int.tdiv (entryPrice * (10000 - collateralRatioBps + 100)) 10000)
    else
      some (Int.tdiv (entryPrice * (10000 + collateralRatioBps - 100)) 10000)

/-- Modelled from the spec's liquidation-price formula, for comparison with
the source function: with `r = collateral * 10000 / size`,
long `liq_price = entry_price * (10000 - r + 100) / 10000` and
short `liq_price = entry_price * (10000 + r - 100) / 10000`. -/
def liqPriceOfSpec (entryPrice : Int) (collateral size : Nat)
    (isLong : Bool) : Int :=
  let r := Int.tdiv ((collateral : Int) * 10000) (size : Int)
  if isLong then Int.tdiv (entryPrice * (10000 - r + 100)) 10000
  else Int.tdiv (entryPrice * (10000 + r - 100)) 10000

/-- Claim C7: for every position with `size > 0` the code's liquidation
price agrees with the spec's formula (maintenance margin fixed at 100 bps),
and at `entry_price = 100_000_000`, `collateral = 1_000_000_000`,
`size = 10_000_000_000`, long, the ratio is `r = 1000` and the liquidation
price is exactly `91_000_000`. -/
theorem c7_liquidation_price :
    (∀ (entryPrice : Int) (collateral size : Nat) (isLong : Bool),
        0 < size →
        calcLiquidationPrice entryPrice collateral size isLong =
          some (liqPriceOfSpec entryPrice collateral size isLong)) ∧
      Int.tdiv ((1000000000 : Int) * 10000) 10000000000 = 1000 ∧
      calcLiquidationPrice 100000000 1000000000 10000000000 true =
        some 91000000 := by
  refine ⟨?_, by decide, by decide⟩
  intro entryPrice collateral size isLong hs
  unfold calcLiquidationPrice liqPriceOfSpec
  rw [if_neg (Nat.pos_iff_ne_zero.mp hs)]
  cases isLong <;> rfl

/-- Witness for C7: the size-positivity hypothesis discharged at a concrete
short position. -/
theorem c7_liquidation_price_witness :
    calcLiquidationPrice 100000000 1000000000 10000000000 false =
      some (liqPriceOfSpec 100000000 1000000000 10000000000 false) :=
  c7_liquidation_price.1 100000000 1000000000 10000000000 false (by decide)

/-- Embedding of `calculate_pnl`: price PnL divided by the entry price, funding payment
(longs use the long accumulator only; shorts net paid-minus-received), and
the time-based borrowing fee, all on `i128` with truncating division.  The
cumulative-funding reads from the market manager and the config values are
passed explicitly. -/
def calcPnl (isLong : Bool) (entryPrice currentPrice : Int) (size : Nat)
    (entryFundingLong entryFundingShort : Int)
    (cumFundingLong cumFundingShort : Int)
    (borrowRatePerSecond : Int) (timeElapsed : Nat) : Int :=
  let sizeI : Int := (size : Int)
  let priceDiff :=
    if isLong then currentPrice - entryPrice else entryPrice - currentPrice
  let pricePnl := Int.tdiv (priceDiff * sizeI) entryPrice
  let fundingPayment :=
    if isLong then
      let fundingAccrued := cumFundingLong - entryFundingLong
      let fundingPerSecond := Int.tdiv fundingAccrued 3600
      Int.tdiv (fundingPerSecond * sizeI) 10000000
    else
      let fundingReceived := cumFundingLong - entryFundingLong
      let fundingPaid := cumFundingShort - entryFundingShort
      let netFunding := fundingPaid - fundingReceived
      let fundingPerSecond := Int.tdiv netFunding 3600
      Int.tdiv (fundingPerSecond * sizeI) 10000000
  let borrowingFee :=
    Int.tdiv (borrowRatePerSecond * (timeElapsed : Int) * sizeI) 10000000
  pricePnl - fundingPayment - borrowingFee

/-- Modelled from the spec's PnL formula, for comparison with the source
function: `price_pnl = (is_long ? current-entry : entry-current) * size /
entry_price`; the funding payment is the side-specific net of
`(cumulative_now - entry_snapshot)/3600 * size / 10_000_000`, longs using
only the long accumulator and shorts netting the short delta (paid) against
the long delta (received); `borrowing_fee = borrow_rate_per_second *
elapsed_seconds * size / 10_000_000`; `pnl = price_pnl - funding_payment -
borrowing_fee`. -/
def pnlOfSpec (isLong : Bool) (entryPrice currentPrice : Int) (size : Nat)
    (entryFundingLong entryFundingShort : Int)
    (cumFundingLong cumFundingShort : Int)
    (borrowRatePerSecond : Int) (timeElapsed : Nat) : Int :=
  let pricePnl :=
    Int.tdiv ((if isLong then currentPrice - entryPrice
               else entryPrice - currentPrice) * (size : Int)) entryPrice
  let fundingPayment :=
    if isLong then
      Int.tdiv (Int.tdiv (cumFundingLong - entryFundingLong) 3600 * (size : Int))
        10000000
    else
      Int.tdiv
        (Int.tdiv ((cumFundingShort - entryFundingShort) -
            (cumFundingLong - entryFundingLong)) 3600 * (size : Int))
        10000000
  let borrowingFee :=
    Int.tdiv (borrowRatePerSecond * (timeElapsed : Int) * (size : Int)) 10000000
  pricePnl - fundingPayment - borrowingFee

/-- Claim C3: for every position with `entry_price > 0` the code's PnL is
exactly the spec's `price_pnl - funding_payment - borrowing_fee`
decomposition, and a long with `entry_price = 100_000_000`,
`size = 10_000_000_000`, current price `110_000_000`, zero funding deltas
and zero elapsed time realizes `pnl = 1_000_000_000`. -/
theorem c3_pnl_formula :
    (∀ (isLong : Bool) (entryPrice currentPrice : Int) (size : Nat)
        (entryFundingLong entryFundingShort : Int)
        (cumFundingLong cumFundingShort : Int)
        (borrowRatePerSecond : Int) (timeElapsed : Nat),
        0 < entryPrice →
        calcPnl isLong entryPrice currentPrice size entryFundingLong
            entryFundingShort cumFundingLong cumFundingShort
            borrowRatePerSecond timeElapsed =
          pnlOfSpec isLong entryPrice currentPrice size entryFundingLong
            entryFundingShort cumFundingLong cumFundingShort
            borrowRatePerSecond timeElapsed) ∧
      calcPnl true 100000000 110000000 10000000000 0 0 0 0 0 0 =
        1000000000 := by
  constructor
  · intro isLong entryPrice currentPrice size efl efs cfl cfs rate elapsed _
    cases isLong <;> rfl
  · decide

/-- Witness for C3: the entry-price-positivity hypothesis discharged at a
concrete short position with funding and borrowing components. -/
theorem c3_pnl_formula_witness :
    calcPnl false 100000000 90000000 10000000000 0 0 7200 3600 2 50 =
      pnlOfSpec false 100000000 90000000 10000000000 0 0 7200 3600 2 50 :=
  c3_pnl_formula.1 false 100000000 90000000 10000000000 0 0 7200 3600 2 50
    (by decide)

/-- Embedding of `liquidate_position`, given the position's collateral and size, the PnL
at the current oracle price and the configured `liquidation_fee_bps`: the
position is liquidatable iff `collateral + pnl ≤ size * 100 / 10000`
(otherwise the call panics with "Position not liquidatable"); on success the
keeper is paid 60% of the liquidation fee, capped by the available
collateral. -/
def liquidatePosition (collateral : Nat) (pnl : Int) (size : Nat)
    (liquidationFeeBps : Nat) : Except Err Nat :=
  let remainingValue := (collateral : Int) + pnl
  let maintenanceMargin := Int.tdiv ((size : Int) * 100) 10000
  if maintenanceMargin < remainingValue then .error .notLiquidatable
  else
    let totalLiquidationFee :=
      Int.tdiv ((size : Int) * (liquidationFeeBps : Int)) 10000
    let keeperReward := Int.tdiv (totalLiquidationFee * 60) 100
    let keeperPayment :=
      if 0 < keeperReward ∧ 0 < collateral then
        if collateral < keeperReward.toNat then collateral
        else keeperReward.toNat
      else 0
    .ok keeperPayment

/-- Claim C2: `liquidate_position` succeeds iff
`remaining_value = collateral + pnl` is at most
`maintenance_margin = size * 100 / 10000`; above the margin it fails with
the `NotLiquidatable` panic (which, by Soroban panic-as-abort semantics,
leaves the position unchanged); for `size = 10_000_000_000` the margin is
exactly `100_000_000`. -/
theorem c2_liquidation_boundary :
    (∀ (collateral : Nat) (pnl : Int) (size liquidationFeeBps : Nat),
        (exceptIsOk (liquidatePosition collateral pnl size liquidationFeeBps) =
            true ↔
          (collateral : Int) + pnl ≤ Int.tdiv ((size : Int) * 100) 10000) ∧
          (liquidatePosition collateral pnl size liquidationFeeBps =
              .error .notLiquidatable ↔
            Int.tdiv ((size : Int) * 100) 10000 < (collateral : Int) + pnl)) ∧
      Int.tdiv ((10000000000 : Int) * 100) 10000 = 100000000 := by
  refine ⟨?_, by decide⟩
  intro collateral pnl size liquidationFeeBps
  unfold liquidatePosition
  dsimp only
  split <;> rename_i hsplit
  · exact ⟨iff_of_false (by decide) (by omega),
      iff_of_true rfl (by omega)⟩
  · exact ⟨iff_of_true rfl (by omega),
      iff_of_false (fun hc => Except.noConfusion hc) (by omega)⟩

/-- Embedding of `settle_trader_pnl`: the amount actually transferred from pool funds to
the trader — zero unless `pnl > 0`. -/
def settleTraderPnl (pnl : Int) : Int :=
  if pnl ≤ 0 then 0 else pnl

/-- The settlement step of `close_position`: what the trader receives,
split as (collateral withdrawn from the position's collateral ledger,
profit paid out of pool funds via `settle_trader_pnl`). -/
def closePositionPayout (collateral : Nat) (pnl : Int) : Nat × Int :=
  let finalAmount := (collateral : Int) + pnl
  if 0 ≤ pnl then
    (collateral, if 0 < pnl then settleTraderPnl pnl else 0)
  else
    let withdrawalAmount := if 0 < finalAmount then finalAmount.toNat else 0
    (withdrawalAmount, 0)

/-- Claim C4: a successful `close_position` pays the trader in total
`collateral + pnl` when `pnl ≥ 0` and `max 0 (collateral + pnl)` when
`pnl < 0`; the pool-funds portion is exactly `max 0 pnl` (so a loss is
absorbed from the position's collateral and never paid out by the pool),
and `settle_trader_pnl` transfers nothing for `pnl ≤ 0`. -/
theorem c4_close_position_settlement (collateral : Nat) (pnl : Int) :
    (((closePositionPayout collateral pnl).1 : Int) +
        (closePositionPayout collateral pnl).2 =
      if 0 ≤ pnl then (collateral : Int) + pnl
      else max 0 ((collateral : Int) + pnl)) ∧
      (closePositionPayout collateral pnl).2 = max 0 pnl ∧
      settleTraderPnl pnl = max 0 pnl := by
  unfold closePositionPayout settleTraderPnl
  dsimp only
  refine ⟨?_, ?_, ?_⟩ <;> (repeat' split) <;> omega

/-! ## Liquidity Pool Accounting (liquidity-pool/src/lib.rs) -/

/-- Lookup in a key-value ledger with a default (the `unwrap_or` reads of the
persistent storage). -/
def assocGetD {α : Type} (l : List (Nat × α)) (k : Nat) (dflt : α) : α :=
  match l with
  | [] => dflt
  | (k', v) :: rest => if k' = k then v else assocGetD rest k dflt

/-- Store a value under a key in a key-value ledger. -/
def assocSet {α : Type} (l : List (Nat × α)) (k : Nat) (v : α) :
    List (Nat × α) :=
  match l with
  | [] => [(k, v)]
  | (k', v') :: rest =>
      if k' = k then (k, v) :: rest else (k', v') :: assocSet rest k v

theorem assocGetD_assocSet {α : Type} (l : List (Nat × α)) (k : Nat) (v dflt : α) :
    assocGetD (assocSet l k v) k dflt = v := by
  induction l with
  | nil => simp [assocSet, assocGetD]
  | cons hd tl ih =>
      obtain ⟨k', v'⟩ := hd
      by_cases h : k' = k <;> simp [assocSet, assocGetD, h, ih]

/-- The liquidity-pool contract's storage: LP share accounting, the token
balance of the pool contract (the authoritative pool value), the aggregate
reserved-liquidity counter and the per-position collateral ledger. -/
structure PoolState where
  totalShares : Int
  totalDeposits : Int
  balance : Int
  reservedLiquidity : Nat
  shares : List (Nat × Int)
  positionCollateral : List (Nat × Nat)
  deriving DecidableEq, Repr

/-- The pool right after `initialize`: zero shares, zero deposits, zero token
balance, nothing reserved. -/
def emptyPool : PoolState :=
  { totalShares := 0
    totalDeposits := 0
    balance := 0
    reservedLiquidity := 0
    shares := []
    positionCollateral := [] }

/-- Embedding of `mint_shares` plus the bookkeeping of `deposit` after the token transfer:
the token balance has already been increased by `amount`. -/
def mintShares (st : PoolState) (user : Nat) (amount sharesToMint : Int) :
    PoolState :=
  { st with
      balance := st.balance + amount
      shares := assocSet st.shares user
        (assocGetD st.shares user 0 + sharesToMint)
      totalShares := st.totalShares + sharesToMint
      totalDeposits := st.totalDeposits + amount }

/-- Embedding of `deposit`: transfers `amount` tokens in first, then mints
`amount` shares for the first deposit, else
`amount * total_shares / (balance_after - amount)` shares (truncating
`i128` division); returns the new state and the minted share count. -/
def deposit (st : PoolState) (user : Nat) (amount : Int) :
    Except Err (PoolState × Int) :=
  if amount ≤ 0 then .error .amountNotPositive
  else
    let balanceAfter := st.balance + amount
    if st.totalShares = 0 then
      .ok (mintShares st user amount amount, amount)
    else
      let poolValueBefore := balanceAfter - amount
      if poolValueBefore ≤ 0 then .error .invalidPoolState
      else
        let sharesToMint := Int.tdiv (amount * st.totalShares) poolValueBefore
        .ok (mintShares st user amount sharesToMint, sharesToMint)

/-- Embedding of `withdraw`: burns `shares` and pays out
`shares * balance / total_shares` tokens, subject to the available-liquidity
check and the minimum-reserve-ratio check (`minReserveBps` is the config
manager's `min_liquidity_reserve_ratio`). -/
def withdraw (st : PoolState) (user : Nat) (shares : Int)
    (minReserveBps : Int) : Except Err (PoolState × Int) :=
  if shares ≤ 0 then .error .sharesNotPositive
  else if st.totalShares = 0 then .error .noSharesToBurn
  else
    let tokensToReturn := Int.tdiv (shares * st.balance) st.totalShares
    let reserved : Int := (st.reservedLiquidity : Int)
    let available := st.balance - reserved
    if available < tokensToReturn then .error .insufficientAvailableLiquidity
    else
      let balanceAfterWithdrawal := st.balance - tokensToReturn
      let minReserveRequired :=
        Int.tdiv (balanceAfterWithdrawal * minReserveBps) 10000
      if balanceAfterWithdrawal - reserved < minReserveRequired then
        .error .minReserveViolated
      else
        let userShares := assocGetD st.shares user 0
        if userShares < shares then .error .insufficientShares
        else
          let depositsToReduce :=
            Int.tdiv (shares * st.totalDeposits) st.totalShares
          .ok ({ st with
                   shares := assocSet st.shares user (userShares - shares)
                   totalShares := st.totalShares - shares
                   totalDeposits := st.totalDeposits - depositsToReduce
                   balance := st.balance - tokensToReturn },
               tokensToReturn)

/-- A deposit immediately followed by a withdrawal of exactly the shares the
deposit minted, with no intervening operation. -/
def roundTrip (st : PoolState) (user : Nat) (amount : Int)
    (minReserveBps : Int) : Except Err Int :=
  match deposit st user amount with
  | .error e => .error e
  | .ok (st1, s) =>
      match withdraw st1 user s minReserveBps with
      | .error e => .error e
      | .ok (_, tokens) => .ok tokens

/-- Embedding of `deposit_position_collateral`: transfers trader collateral into the pool
(raising the pool's token balance without minting any LP shares) and records
it in the per-position collateral ledger. -/
def depositPositionCollateral (st : PoolState) (positionId : Nat)
    (amount : Nat) : PoolState :=
  { st with
      balance := st.balance + (amount : Int)
      positionCollateral := assocSet st.positionCollateral positionId
        (assocGetD st.positionCollateral positionId 0 + amount) }

/-- Pool states reachable from the freshly initialized pool through
successful `deposit`, `withdraw` and `deposit_position_collateral` calls. -/
inductive PoolReachable : PoolState → Prop
  | start : PoolReachable emptyPool
  | depositStep {st st' : PoolState} {user : Nat} {amount s : Int} :
      PoolReachable st → deposit st user amount = .ok (st', s) →
      PoolReachable st'
  | withdrawStep {st st' : PoolState} {user : Nat} {shares minReserveBps t : Int} :
      PoolReachable st → withdraw st user shares minReserveBps = .ok (st', t) →
      PoolReachable st'
  | collateralStep {st : PoolState} {positionId amount : Nat} :
      PoolReachable st →
      PoolReachable (depositPositionCollateral st positionId amount)

/-- A pool holding `total_shares = 2` but a token balance of 3 (reachable:
deposit 2, then 1 of position collateral enters the pool), with LP 0 owning
both shares. -/
def c5Pool : PoolState :=
  { totalShares := 2
    totalDeposits := 2
    balance := 3
    reservedLiquidity := 0
    shares := [(0, 2)]
    positionCollateral := [(1, 1)] }

/-- Counterexample to claim C5 as stated: on `c5Pool`, `deposit(0, 2)`
succeeds minting `s = 2*2/3 = 1` share, and the immediately following
`withdraw(0, 1)` succeeds but returns only `1*5/3 = 1` token, not the 2
tokens that were deposited — integer truncation in the mint makes the round
trip lossy. -/
theorem c5_roundtrip_counterexample :
    Except.map (fun p => p.2) (deposit c5Pool 0 2) = Except.ok 1 ∧
      roundTrip c5Pool 0 2 0 = Except.ok 1 ∧
      (1 : Int) ≠ 2 := by
  refine ⟨by decide, by decide, by decide⟩

/-- Claim C5 (amended): the deposit-then-withdraw round trip returns exactly
the deposited amount provided no truncation occurs when the shares are
minted — either the pool is completely empty (`total_shares = 0` and zero
token balance), or `total_shares > 0`, the pre-deposit balance is positive
and divides `amount * total_shares` — and the withdrawal passes the
liquidity checks (`reserved ≤ balance` and the minimum-reserve requirement
on the post-withdrawal balance).  In particular a first deposit of 500 into
the empty pool mints 500 shares and a subsequent withdrawal of 250 shares
returns exactly 250 tokens leaving 250 shares. -/
theorem c5_roundtrip_amended :
    (∀ (st : PoolState) (user : Nat) (amount minReserveBps : Int),
        0 < amount →
        0 ≤ assocGetD st.shares user 0 →
        (st.reservedLiquidity : Int) ≤ st.balance →
        Int.tdiv (st.balance * minReserveBps) 10000 ≤
          st.balance - (st.reservedLiquidity : Int) →
        (st.totalShares = 0 ∧ st.balance = 0) ∨
          (0 < st.totalShares ∧ 0 < st.balance ∧
            st.balance ∣ amount * st.totalShares) →
        roundTrip st user amount minReserveBps = Except.ok amount) ∧
      Except.map (fun p => (p.2, p.1.totalShares)) (deposit emptyPool 0 500) =
        Except.ok (500, 500) ∧
      Except.map
          (fun p => (p.2, p.1.totalShares, assocGetD p.1.shares 0 0))
          (withdraw (mintShares emptyPool 0 500 500) 0 250 2000) =
        Except.ok (250, 250, 250) := by
  refine ⟨?_, by decide, by decide⟩
  intro st user amount minReserveBps hamt hush hres hmin hcase
  obtain ⟨hT0, hB0⟩ | ⟨hT, hB, hdvd⟩ := hcase
  · have hR : (st.reservedLiquidity : Int) = 0 := by omega
    unfold roundTrip deposit withdraw mintShares
    dsimp only
    rw [if_neg (by omega), if_pos hT0]
    dsimp only
    rw [hT0, hB0, hR]
    simp only [zero_add]
    rw [if_neg (by omega), if_neg (by omega : ¬ amount = 0),
      Int.mul_tdiv_cancel _ (by omega : amount ≠ 0),
      if_neg (by omega), sub_self, zero_mul, Int.zero_tdiv,
      if_neg (by omega), if_neg (by rw [assocGetD_assocSet]; omega)]
  · unfold roundTrip deposit withdraw mintShares
    dsimp only
    rw [if_neg (by omega), if_neg (by omega : ¬ st.totalShares = 0),
      if_neg (by omega : ¬ st.balance + amount - amount ≤ 0)]
    dsimp only
    have hBsimp : st.balance + amount - amount = st.balance := by ring
    rw [hBsimp]
    set s := Int.tdiv (amount * st.totalShares) st.balance with hs_def
    have hsB : s * st.balance = amount * st.totalShares :=
      Int.tdiv_mul_cancel hdvd
    have hs_pos : 0 < s := by
      have h1 : 0 < s * st.balance := by
        rw [hsB]; exact mul_pos hamt hT
      nlinarith
    have hkey : s * (st.balance + amount) = amount * (st.totalShares + s) := by
      linear_combination hsB
    have htok : Int.tdiv (s * (st.balance + amount)) (st.totalShares + s)
        = amount := by
      rw [hkey]
      exact Int.mul_tdiv_cancel _ (by omega)
    rw [if_neg (by omega), if_neg (by omega : ¬ st.totalShares + s = 0), htok,
      if_neg (by omega), hBsimp, if_neg (by omega),
      if_neg (by rw [assocGetD_assocSet]; omega)]

/-- Witness for C5: the amended round-trip law applied to a concrete pool
with `total_shares = 100`, balance 100 and a deposit of 50 (no truncation:
`100 ∣ 50 * 100`), returning exactly 50. -/
theorem c5_roundtrip_amended_witness :
    roundTrip
      { totalShares := 100
        totalDeposits := 100
        balance := 100
        reservedLiquidity := 0
        shares := [(3, 100)]
        positionCollateral := [] } 3 50 2000 = Except.ok 50 :=
  c5_roundtrip_amended.1 _ 3 50 2000 (by decide) (by decide) (by decide)
    (by decide) (Or.inr ⟨by decide, by decide, ⟨50, by decide⟩⟩)

/-- The reachable pool used for claim C10: LP 0 deposits 1 token (minting 1
share), then 99 tokens of position collateral enter the pool, leaving
`total_shares = 1` against a balance of 100. -/
def c10Pool : PoolState :=
  depositPositionCollateral (mintShares emptyPool 0 1 1) 7 99

/-- Claim C10: `c10Pool` is reachable, has `total_shares = 1 > 0`, and a
deposit of `amount = 2` by user 1 succeeds while minting exactly 0 shares
(`2 * 1 / 100 = 0`): the full amount is transferred in (balance rises by
exactly 2), `total_deposits` rises by 2, the depositor's share balance stays
0, and the deposit is not rejected. -/
theorem c10_zero_share_deposit :
    PoolReachable c10Pool ∧
      0 < c10Pool.totalShares ∧
      Except.map
          (fun p => (p.2, p.1.balance, p.1.totalDeposits, p.1.totalShares,
            assocGetD p.1.shares 1 0))
          (deposit c10Pool 1 2) =
        Except.ok (0, c10Pool.balance + 2, c10Pool.totalDeposits + 2,
          c10Pool.totalShares, 0) := by
  refine ⟨?_, by decide, by decide⟩
  exact PoolReachable.collateralStep
    (PoolReachable.depositStep PoolReachable.start
      (by decide : deposit emptyPool 0 1 = .ok (mintShares emptyPool 0 1 1, 1)))

/-! ## Order Subsystem (position-manager/src/lib.rs) -/

/-- The three order kinds of the order subsystem. -/
inductive OrderKind
  | limit
  | stopLoss
  | takeProfit
  deriving DecidableEq, Repr

/-- The `Order` struct of the position-manager contract (traders are
modelled as numeric identities). -/
structure Order where
  orderId : Nat
  orderKind : OrderKind
  trader : Nat
  marketId : Nat
  positionId : Nat
  triggerPrice : Int
  acceptablePrice : Int
  collateral : Nat
  size : Nat
  leverage : Nat
  isLong : Bool
  closePercentage : Nat
  executionFee : Nat
  expiration : Nat
  createdAt : Nat
  deriving DecidableEq, Repr

/-- Embedding of `check_order_trigger`: the trigger-predicate table
(Limit/StopLoss long: `p ≤ t`, short: `p ≥ t`; TakeProfit long: `p ≥ t`,
short: `p ≤ t`). -/
def checkOrderTrigger (o : Order) (currentPrice : Int) : Bool :=
  match o.orderKind with
  | .limit =>
      if o.isLong then decide (currentPrice ≤ o.triggerPrice)
      else decide (o.triggerPrice ≤ currentPrice)
  | .stopLoss =>
      if o.isLong then decide (currentPrice ≤ o.triggerPrice)
      else decide (o.triggerPrice ≤ currentPrice)
  | .takeProfit =>
      if o.isLong then decide (o.triggerPrice ≤ currentPrice)
      else decide (currentPrice ≤ o.triggerPrice)

/-- Embedding of `check_acceptable_price`: slippage bound, `0` meaning unbounded. -/
def checkAcceptablePrice (o : Order) (currentPrice : Int) : Bool :=
  if o.acceptablePrice = 0 then true
  else
    match o.orderKind with
    | .limit =>
        if o.isLong then decide (currentPrice ≤ o.acceptablePrice)
        else decide (o.acceptablePrice ≤ currentPrice)
    | _ =>
        if o.isLong then decide (o.acceptablePrice ≤ currentPrice)
        else decide (currentPrice ≤ o.acceptablePrice)

/-- The storage touched by `execute_order`'s guard sequence: the order
ledger, the position-manager contract's own token balance (the escrow
account) and the traders' token balances. -/
structure OrderLedger where
  orders : List (Nat × Order)
  contractBalance : Int
  traderBalances : List (Nat × Int)
  deriving DecidableEq, Repr

/-- A token transfer from the position-manager contract to a trader. -/
def transferToTrader (st : OrderLedger) (trader : Nat) (amount : Nat) :
    OrderLedger :=
  { st with
      contractBalance := st.contractBalance - (amount : Int)
      traderBalances := assocSet st.traderBalances trader
        (assocGetD st.traderBalances trader 0 + (amount : Int)) }

/-- Remove an order from the order ledger (`cleanup_order`'s storage
removal). -/
def removeOrder (st : OrderLedger) (orderId : Nat) : OrderLedger :=
  { st with orders := st.orders.filter (fun p => decide (¬ p.1 = orderId)) }

/-- Outcome of `execute_order`'s guard sequence: either the order passed all
checks and execution proceeds, or the call panics with the given reason. -/
inductive ExecOutcome
  | proceed (o : Order)
  | halt (e : Err)
  deriving DecidableEq, Repr

/-- The guard sequence at the top of `execute_order` (order lookup,
expiration, market pause, trigger condition, acceptable price), including
every storage mutation the code performs along the way: in the expiration
branch the code first transfers the execution-fee refund to the trader and
removes the order from storage, and only then panics with "Order expired".
The order-type dispatch that follows a successful guard pass is outside the
scope of this model. -/
def executeOrderChecks (st : OrderLedger) (now : Nat) (marketIsPaused : Bool)
    (currentPrice : Int) (orderId : Nat) : OrderLedger × ExecOutcome :=
  match assocGetD (st.orders.map (fun p => (p.1, some p.2))) orderId none with
  | none => (st, .halt .orderNotFound)
  | some o =>
      if 0 < o.expiration ∧ o.expiration < now then
        let st1 := transferToTrader st o.trader o.executionFee
        let st2 := removeOrder st1 orderId
        (st2, .halt .orderExpired)
      else if marketIsPaused then (st, .halt .marketPaused)
      else if checkOrderTrigger o currentPrice = false then
        (st, .halt .triggerNotMet)
      else if checkAcceptablePrice o currentPrice = false then
        (st, .halt .priceOutsideAcceptable)
      else (st, .proceed o)

/-- The committed effect of `execute_order`'s guard sequence under Soroban
panic-as-abort semantics: a panic discards every state mutation of the
invocation, so on any `halt` the ledger reverts to its pre-call state. -/
def executeOrderGateTx (st : OrderLedger) (now : Nat) (marketIsPaused : Bool)
    (currentPrice : Int) (orderId : Nat) : OrderLedger × Option Err :=
  match executeOrderChecks st now marketIsPaused currentPrice orderId with
  | (_, .halt e) => (st, some e)
  | (st', .proceed _) => (st', none)

/-- The expired order of claim C9: expiration 5, execution fee 10, owned by
trader 7. -/
def c9Order : Order :=
  { orderId := 1
    orderKind := .limit
    trader := 7
    marketId := 0
    positionId := 0
    triggerPrice := 100
    acceptablePrice := 0
    collateral := 500
    size := 5000
    leverage := 10
    isLong := true
    closePercentage := 0
    executionFee := 10
    expiration := 5
    createdAt := 0 }

/-- The ledger holding `c9Order` with its escrowed fee. -/
def c9Ledger : OrderLedger :=
  { orders := [(1, c9Order)]
    contractBalance := 10
    traderBalances := [(7, 0)] }

/-- Claim C9 (divergence): at timestamp 10 the expired order 1 is rejected,
and inside the call the code does transfer the fee refund and remove the
order (first conjunct) — but the rejection is a `panic!`, so under Soroban
panic-as-abort semantics the committed result reverts every one of those
mutations: the ledger is exactly the pre-call state, the order is still in
storage and no fee has moved (remaining conjuncts).  The claim says the
refund and the removal survive the rejection; they do not. -/
theorem c9_expired_order_cleanup_reverted :
    executeOrderChecks c9Ledger 10 false 100 1 =
      ({ orders := []
         contractBalance := 0
         traderBalances := [(7, 10)] }, .halt .orderExpired) ∧
      executeOrderGateTx c9Ledger 10 false 100 1 =
        (c9Ledger, some .orderExpired) ∧
      assocGetD (c9Ledger.orders.map (fun p => (p.1, some p.2))) 1 none =
        some c9Order := by
  refine ⟨by decide, by decide, by decide⟩

end StellarsFinance
